import Mathlib

/-!
Verification of the ledger reconciler implemented in `gestione_spese.py`.

The program keeps a table of expense/income records in a remote spreadsheet
(columns `ID, Data, Tipo, Categoria, Importo, Note`), loads it with
`carica_dati`, filters it by year and optional month into `df_filtrato`,
aggregates the filtered view into `entrate`/`uscite`/`saldo`, lets the user
edit the filtered view in a grid, and reconciles the edited view back into
the full set before writing everything back with `salva_dati_su_cloud`.

Embedding choices:
* A pandas `DataFrame` becomes a `List Record`; row order is list order.
* Dates are triples of naturals (`SDate`).  The lenient date conversion
  performed by `pd.to_datetime(..., errors=coerce)` is an external pandas
  facility, so the load function is parametrised by an oracle
  `parse : String → Option SDate` (`none` models `NaT`); a concrete
  executable model `converti_data` of the `YYYY-MM-DD` parse is provided to
  instantiate witnesses.
* The remote fetch performed inside `carica_dati` is modelled by an
  `Except String (List RawRow)` argument: `Except.error e` is the branch in
  which the `try` block raises (connection failure, missing secrets, and so
  on, including the `st.stop` control exception raised by
  `connetti_google_sheet`, which the surrounding `except Exception` clause
  also catches) and `Except.ok rows` is a successful `get_all_records`.
  The diagnostic shown with `st.warning` becomes the second component of
  the result.
* `genera_id` draws a fresh random uuid prefix on every call; the stream of
  values produced by successive calls is modelled by a function
  `gen : Nat → String` (the k-th call made while reconciling returns
  `gen k`).
-/

/-- A calendar date as stored in the `Data` column after parsing. -/
structure SDate where
  year : Nat
  month : Nat
  day : Nat
  deriving DecidableEq, Repr

/-- One row of the in-memory table, after the `Data` column has been
converted to dates: the record shape used by the dashboard. -/
structure Record where
  id : String
  data : SDate
  tipo : String
  categoria : String
  importo : ℚ
  note : String
  deriving DecidableEq, Repr

/-- One raw row as returned by `sheet.get_all_records()`: the `Data` cell is
still an unparsed string.  Every other field is passed through untouched by
`carica_dati`. -/
structure RawRow where
  id : String
  data : String
  tipo : String
  categoria : String
  importo : ℚ
  note : String
  deriving DecidableEq, Repr

/-- The list of values of the `ID` column (`df["ID"].tolist()`). -/
def ids (l : List Record) : List String := l.map Record.id

/-- Conversion of one raw sheet row into a record: the `Data` cell goes
through the lenient parse, `none` (pandas `NaT`) drops the row, every other
field is copied verbatim.  This is the per-row effect of
`pd.to_datetime(df["Data"], errors=coerce)` followed by
`df.dropna(subset=["Data"])` in `carica_dati`. -/
def riga_in_record (parse : String → Option SDate) (raw : RawRow) : Option Record :=
  (parse raw.data).map fun d =>
    { id := raw.id, data := d, tipo := raw.tipo, categoria := raw.categoria,
      importo := raw.importo, note := raw.note }

/-- Function `carica_dati` of `gestione_spese.py` (lines 46-81).  On any exception in
the `try` block it returns the empty table plus the `st.warning` diagnostic;
on a successful fetch it keeps exactly the rows whose `Data` cell parses.
The empty-sheet branch (write the header row, return the empty frame) is the
`Except.ok []` case. -/
def carica_dati (parse : String → Option SDate) (fetch : Except String (List RawRow)) :
    List Record × Option String :=
  match fetch with
  | Except.error e =>
      ([], some ("Impossibile leggere i dati online. Avvio con database vuoto locale. ("
        ++ e ++ ")"))
  | Except.ok rows => (rows.filterMap (riga_in_record parse), none)

/-- Digit character of `n % 10`. -/
def cifra (n : Nat) : Char := Char.ofNat (48 + n % 10)

/-- Two-digit zero-padded decimal rendering (`%m`, `%d`). -/
def pad2 (n : Nat) : String := String.mk [cifra (n / 10), cifra n]

/-- Four-digit zero-padded decimal rendering (`%Y` for the representable
year range). -/
def pad4 (n : Nat) : String :=
  String.mk [cifra (n / 1000), cifra (n / 100), cifra (n / 10), cifra n]

/-- Serialisation `strftime("%Y-%m-%d")` applied to a date, as done by
`salva_dati_su_cloud` before writing the sheet. -/
def formatDate (d : SDate) : String :=
  pad4 d.year ++ "-" ++ pad2 d.month ++ "-" ++ pad2 d.day

/-- Function `salva_dati_su_cloud` of `gestione_spese.py` (lines 83-103), happy path:
the sheet contents after `sheet.clear()` and the full rewrite, namely one
raw row per record with the date serialised as `YYYY-MM-DD`. -/
def salva_dati_su_cloud (df : List Record) : List RawRow :=
  df.map fun r =>
    { id := r.id, data := formatDate r.data, tipo := r.tipo, categoria := r.categoria,
      importo := r.importo, note := r.note }

/-- The period filter (lines 172-179): keep the rows whose year matches the
selected year and, when a month is selected, whose month matches too. -/
def df_filtrato (df : List Record) (anno : Nat) (mese : Option Nat) : List Record :=
  let per_anno := df.filter fun r => r.data.year == anno
  match mese with
  | none => per_anno
  | some m => per_anno.filter fun r => r.data.month == m

/-- Value `entrate` (line 186): sum of the amounts of the rows whose `Tipo` is
`Entrata`. -/
def entrate (v : List Record) : ℚ :=
  ((v.filter fun r => r.tipo == "Entrata").map Record.importo).sum

/-- Value `uscite` (line 187): sum of the amounts of the rows whose `Tipo` is
`Uscita`. -/
def uscite (v : List Record) : ℚ :=
  ((v.filter fun r => r.tipo == "Uscita").map Record.importo).sum

/-- Value `saldo` (line 188). -/
def saldo (v : List Record) : ℚ := entrate v - uscite v

/-- The three KPI values shown by the dashboard, bundled as the `aggregate`
operation of the specification. -/
def aggregate (v : List Record) : ℚ × ℚ × ℚ := (entrate v, uscite v, saldo v)

/-- The form-submission insert (lines 128-142): the new record is appended
to the table, with the `if df.empty` special case of the source kept. -/
def aggiungi_movimento (df : List Record) (nuovo : Record) : List Record :=
  if df = [] then [nuovo] else df ++ [nuovo]

/-- The id-assignment loop of the save handler (lines 246-248): every row of
the edited view whose id is blank or missing receives the next freshly
generated id; `k` is the index of the next `genera_id` call. -/
def assegna_id (gen : Nat → String) : List Record → Nat → List Record
  | [], _ => []
  | r :: rs, k =>
    if r.id = "" then { r with id := gen k } :: assegna_id gen rs (k + 1)
    else r :: assegna_id gen rs k

/-- The `Salva Modifiche` handler (lines 236-256) as a function of the
reloaded full set, the pre-edit view, the edited view, and the id stream:
drop from the full set every row whose id was displayed, assign fresh ids to
blank-id edited rows, and append the edited view. -/
def reconcile (df_db_completo df_filtrato df_modificato : List Record)
    (gen : Nat → String) : List Record :=
  let ids_visualizzati := ids df_filtrato
  let df_db_aggiornato := df_db_completo.filter fun r => !(ids_visualizzati.contains r.id)
  df_db_aggiornato ++ assegna_id gen df_modificato 0

/-- Number of blank-id rows of a list: how many `genera_id` calls the
id-assignment loop performs on it. -/
def nB : List Record → Nat
  | [] => 0
  | r :: rs => if r.id = "" then nB rs + 1 else nB rs

/-- The non-blank ids of a list of records, in order. -/
def usedIds (rs : List Record) : List String :=
  rs.filterMap fun r => if r.id = "" then none else some r.id

/-- Leap year test, used by the concrete date parse model. -/
def bisestile (y : Nat) : Bool :=
  decide ((y % 4 = 0 ∧ ¬ y % 100 = 0) ∨ y % 400 = 0)

/-- Days in a month, used by the concrete date parse model. -/
def giorni_del_mese (y m : Nat) : Nat :=
  if m = 2 then (if bisestile y then 29 else 28)
  else if m = 4 ∨ m = 6 ∨ m = 9 ∨ m = 11 then 30
  else 31

/-- Validity of a calendar date, used by the concrete date parse model. -/
def data_valida (y m d : Nat) : Bool :=
  decide (1 ≤ m ∧ m ≤ 12 ∧ 1 ≤ d ∧ d ≤ giorni_del_mese y m)

/-- Split a character list on a separator. -/
def spezza (sep : Char) : List Char → List (List Char)
  | [] => [[]]
  | c :: cs =>
    let rest := spezza sep cs
    if c = sep then [] :: rest
    else
      match rest with
      | [] => [[c]]
      | f :: fs => (c :: f) :: fs

/-- Read a digit string as a natural number, `none` on a non-digit. -/
def leggi_cifre : List Char → Nat → Option Nat
  | [], acc => some acc
  | c :: cs, acc =>
    if c.isDigit then leggi_cifre cs (10 * acc + (c.toNat - 48)) else none

/-- Read a non-empty digit string as a natural number. -/
def leggi_nat (cs : List Char) : Option Nat :=
  match cs with
  | [] => none
  | _ => leggi_cifre cs 0

/-- Executable model of the lenient date conversion
(`pd.to_datetime(..., errors=coerce)`), which lives inside the external
pandas library, not in this repository; it accepts exactly the
`YYYY-MM-DD` strings that denote valid calendar dates — enough to
instantiate the parse oracle of the theorems below at concrete inputs. -/
def converti_data (s : String) : Option SDate :=
  match spezza '-' s.toList with
  | [ys, ms, ds] =>
    match leggi_nat ys, leggi_nat ms, leggi_nat ds with
    | some y, some m, some d =>
        if data_valida y m d then some ⟨y, m, d⟩ else none
    | _, _, _ => none
  | _ => none

example : converti_data "2024-01-05" = some ⟨2024, 1, 5⟩ := by decide
example : converti_data (formatDate ⟨2024, 1, 5⟩) = some ⟨2024, 1, 5⟩ := by decide
example : converti_data "non-una-data" = none := by decide
example : converti_data "2023-02-29" = none := by decide

/-- Auxiliary: a successful load applied to the rows written by a save
returns exactly the original records, provided the parse oracle inverts the
`YYYY-MM-DD` serialisation on every date actually present. -/
theorem carica_salva_aux (parse : String → Option SDate) (S : List Record)
    (h : ∀ r ∈ S, parse (formatDate r.data) = some r.data) :
    (salva_dati_su_cloud S).filterMap (riga_in_record parse) = S := by
  induction S with
  | nil => rfl
  | cons r S ih =>
    have hr : parse (formatDate r.data) = some r.data := h r (by simp)
    have ht := ih (fun x hx => h x (by simp [hx]))
    simp only [salva_dati_su_cloud, List.map_cons, List.filterMap_cons, riga_in_record, hr,
      Option.map_some']
    simp only [salva_dati_su_cloud] at ht
    simp [ht]

/-- C7: round-trip idempotence — with no concurrent writer and both
operations succeeding, saving a loaded set and loading again returns a
record set equal to the original up to record order, whenever the parse
oracle inverts the `YYYY-MM-DD` serialisation on the dates of the set (as
the pandas conversion does on `strftime` output). -/
theorem salva_poi_carica_perm (parse : String → Option SDate) (S : List Record)
    (h : ∀ r ∈ S, parse (formatDate r.data) = some r.data) :
    List.Perm (carica_dati parse (Except.ok (salva_dati_su_cloud S))).1 S := by
  have e : (carica_dati parse (Except.ok (salva_dati_su_cloud S))).1 = S :=
    carica_salva_aux parse S h
  rw [e]

/-- Witness for C7 at a concrete one-record ledger. -/
theorem salva_poi_carica_perm_witness :
    List.Perm
      (carica_dati converti_data (Except.ok (salva_dati_su_cloud
        [⟨"a1", ⟨2024, 1, 5⟩, "Uscita", "Cibo", 20, ""⟩]))).1
      [⟨"a1", ⟨2024, 1, 5⟩, "Uscita", "Cibo", 20, ""⟩] :=
  salva_poi_carica_perm converti_data
    [⟨"a1", ⟨2024, 1, 5⟩, "Uscita", "Cibo", 20, ""⟩] (by decide)

/-- C4: every record selected by the period filter has the selected year
and, when a month is selected, the selected month; the filtered view is a
sublist of the input (records taken whole, fields unchanged); the filter is
a pure function of its input, so the input set is not modified. -/
theorem df_filtrato_corretto (S : List Record) (y : Nat) (m : Option Nat) :
    (df_filtrato S y m).Sublist S ∧
    ∀ r ∈ df_filtrato S y m, r.data.year = y ∧ ∀ mm, m = some mm → r.data.month = mm := by
  constructor
  · cases m with
    | none => exact List.filter_sublist S
    | some mm => exact (List.filter_sublist _).trans (List.filter_sublist S)
  · intro r hr
    cases m with
    | none =>
      simp only [df_filtrato, List.mem_filter, beq_iff_eq] at hr
      exact ⟨hr.2, fun mm hmm => by cases hmm⟩
    | some mm =>
      simp only [df_filtrato, List.mem_filter, beq_iff_eq] at hr
      exact ⟨hr.1.2, fun mm' hmm' => by cases hmm'; exact hr.2⟩

/-- Witness for C4 at a concrete two-record set and a month filter. -/
theorem df_filtrato_corretto_witness :
    (df_filtrato [⟨"a1", ⟨2024, 1, 5⟩, "Uscita", "Cibo", 20, ""⟩,
                  ⟨"b2", ⟨2023, 2, 6⟩, "Entrata", "Bonus", 9, ""⟩] 2024 (some 1)).Sublist
        [⟨"a1", ⟨2024, 1, 5⟩, "Uscita", "Cibo", 20, ""⟩,
         ⟨"b2", ⟨2023, 2, 6⟩, "Entrata", "Bonus", 9, ""⟩] ∧
    ∀ r ∈ df_filtrato [⟨"a1", ⟨2024, 1, 5⟩, "Uscita", "Cibo", 20, ""⟩,
                  ⟨"b2", ⟨2023, 2, 6⟩, "Entrata", "Bonus", 9, ""⟩] 2024 (some 1),
      r.data.year = 2024 ∧ ∀ mm, (some 1 : Option Nat) = some mm → r.data.month = mm :=
  df_filtrato_corretto
    [⟨"a1", ⟨2024, 1, 5⟩, "Uscita", "Cibo", 20, ""⟩,
     ⟨"b2", ⟨2023, 2, 6⟩, "Entrata", "Bonus", 9, ""⟩] 2024 (some 1)

/-- C5: the load boundary never lets a fetch failure escape — for every
failing outcome of the remote fetch (store unreachable, misconfigured
credentials, or any internal failure of the `try` block) the function
returns the empty record set together with the diagnostic message, instead
of propagating the exception. -/
theorem carica_dati_non_solleva (parse : String → Option SDate) (e : String) :
    (carica_dati parse (Except.error e)).1 = [] ∧
    (carica_dati parse (Except.error e)).2 =
      some ("Impossibile leggere i dati online. Avvio con database vuoto locale. ("
        ++ e ++ ")") :=
  ⟨rfl, rfl⟩

/-- C6: a row whose date cell does not parse as a valid calendar date is
silently discarded by the load — the batch is not aborted, the surrounding
rows are still returned, and no diagnostic is raised. -/
theorem carica_dati_scarta_riga (parse : String → Option SDate)
    (pre post : List RawRow) (bad : RawRow) (hbad : parse bad.data = none) :
    carica_dati parse (Except.ok (pre ++ bad :: post)) =
      carica_dati parse (Except.ok (pre ++ post)) := by
  simp [carica_dati, List.filterMap_append, List.filterMap_cons, riga_in_record, hbad]

/-- Witness for C6: a malformed middle row is dropped, its neighbours
survive. -/
theorem carica_dati_scarta_riga_witness :
    carica_dati converti_data (Except.ok
      ([⟨"a1", "2024-01-05", "Uscita", "Cibo", 20, ""⟩] ++
        ⟨"b2", "non-una-data", "Uscita", "Casa", 7, ""⟩ ::
        [⟨"c3", "2024-02-06", "Entrata", "Bonus", 9, ""⟩])) =
    carica_dati converti_data (Except.ok
      ([⟨"a1", "2024-01-05", "Uscita", "Cibo", 20, ""⟩] ++
        [⟨"c3", "2024-02-06", "Entrata", "Bonus", 9, ""⟩])) :=
  carica_dati_scarta_riga converti_data
    [⟨"a1", "2024-01-05", "Uscita", "Cibo", 20, ""⟩]
    [⟨"c3", "2024-02-06", "Entrata", "Bonus", 9, ""⟩]
    ⟨"b2", "non-una-data", "Uscita", "Casa", 7, ""⟩ (by decide)

/-- Auxiliary: a conditional fold of the amounts of one kind equals the
accumulator plus the filter-then-sum computation used by the dashboard. -/
theorem somma_condizionale (t : String) (v : List Record) : ∀ a : ℚ,
    v.foldl (fun acc r => if r.tipo = t then acc + r.importo else acc) a =
      a + ((v.filter fun r => r.tipo == t).map Record.importo).sum := by
  induction v with
  | nil => intro a; simp
  | cons r v ih =>
    intro a
    by_cases h : r.tipo = t
    · simp [List.foldl_cons, h, ih, add_assoc]
    · simp [List.foldl_cons, h, ih]

/-- C8: the aggregate of a view sums the amounts of the `Entrata` rows into
the income total, the amounts of the `Uscita` rows into the expense total,
and reports their difference as the balance; on the example view of one
income of 100 and one expense of 40 it yields (100, 40, 60). -/
theorem aggregate_corretto :
    (∀ v : List Record,
      (aggregate v).1 =
        v.foldl (fun acc r => if r.tipo = "Entrata" then acc + r.importo else acc) 0 ∧
      (aggregate v).2.1 =
        v.foldl (fun acc r => if r.tipo = "Uscita" then acc + r.importo else acc) 0 ∧
      (aggregate v).2.2 = (aggregate v).1 - (aggregate v).2.1) ∧
    aggregate [⟨"a1", ⟨2024, 1, 10⟩, "Entrata", "Stipendio", 100, ""⟩,
               ⟨"b2", ⟨2024, 1, 11⟩, "Uscita", "Cibo", 40, ""⟩] = (100, 40, 60) := by
  constructor
  · intro v
    refine ⟨?_, ?_, rfl⟩
    · rw [somma_condizionale "Entrata" v 0]
      simp [aggregate, entrate]
    · rw [somma_condizionale "Uscita" v 0]
      simp [aggregate, uscite]
  · have h1 : ("Uscita" : String) ≠ "Entrata" := by decide
    have h2 : ("Entrata" : String) ≠ "Uscita" := by decide
    norm_num [aggregate, entrate, uscite, saldo, List.filter_cons, beq_iff_eq, h1, h2,
      Prod.ext_iff]

/-- C10: the load validates only the date column — a record is in the
output of a successful load exactly when some input row parses to its date
and carries all its other fields verbatim; in particular rows with blank
ids, kinds other than `Entrata`/`Uscita`, or negative amounts pass through
unvalidated. -/
theorem carica_dati_valida_solo_data (parse : String → Option SDate)
    (rows : List RawRow) (r : Record) :
    r ∈ (carica_dati parse (Except.ok rows)).1 ↔
      ∃ raw, raw ∈ rows ∧ parse raw.data = some r.data ∧ raw.id = r.id ∧
        raw.tipo = r.tipo ∧ raw.categoria = r.categoria ∧
        raw.importo = r.importo ∧ raw.note = r.note := by
  cases r with
  | mk rid rdata rtipo rcat rimp rnote =>
    simp only [carica_dati, List.mem_filterMap, riga_in_record, Option.map_eq_some']
    constructor
    · rintro ⟨raw, hraw, d, hd, hrec⟩
      simp only [Record.mk.injEq] at hrec
      obtain ⟨h1, h2, h3, h4, h5, h6⟩ := hrec
      subst h1 h2 h3 h4 h5 h6
      exact ⟨raw, hraw, hd, rfl, rfl, rfl, rfl, rfl⟩
    · rintro ⟨raw, hraw, hd, h1, h2, h3, h4, h5⟩
      subst h1 h2 h3 h4 h5
      exact ⟨raw, hraw, rdata, hd, rfl⟩

/-- Auxiliary: the ids produced by the assignment loop on a blank-id head
row. -/
theorem ids_assegna_cons_blank (gen : Nat → String) (r : Record) (rs : List Record)
    (k : Nat) (h : r.id = "") :
    ids (assegna_id gen (r :: rs) k) = gen k :: ids (assegna_id gen rs (k + 1)) := by
  simp [assegna_id, if_pos h, ids]

/-- Auxiliary: the ids produced by the assignment loop on a non-blank head
row. -/
theorem ids_assegna_cons_keep (gen : Nat → String) (r : Record) (rs : List Record)
    (k : Nat) (h : ¬ r.id = "") :
    ids (assegna_id gen (r :: rs) k) = r.id :: ids (assegna_id gen rs k) := by
  simp [assegna_id, if_neg h, ids]

/-- Auxiliary: cons equation for the non-blank ids of a list. -/
theorem usedIds_cons (r : Record) (rs : List Record) :
    usedIds (r :: rs) = if r.id = "" then usedIds rs else r.id :: usedIds rs := by
  by_cases h : r.id = "" <;> simp [usedIds, List.filterMap_cons, h]

/-- Auxiliary: every non-blank id of a list is an id of the list. -/
theorem mem_usedIds_mem_ids (rs : List Record) (x : String) (hx : x ∈ usedIds rs) :
    x ∈ ids rs := by
  simp only [usedIds, List.mem_filterMap] at hx
  obtain ⟨r, hr, hval⟩ := hx
  by_cases h : r.id = ""
  · simp [if_pos h] at hval
  · simp only [if_neg h, Option.some.injEq] at hval
    exact hval ▸ List.mem_map_of_mem Record.id hr

/-- Auxiliary: every id in the output of the assignment loop is either a
non-blank id of the input or a generated id whose call index lies in the
window of calls the loop performs. -/
theorem mem_ids_assegna (gen : Nat → String) : ∀ (rs : List Record) (k : Nat) (x : String),
    x ∈ ids (assegna_id gen rs k) →
    x ∈ usedIds rs ∨ ∃ j, k ≤ j ∧ j < k + nB rs ∧ x = gen j := by
  intro rs
  induction rs with
  | nil => intro k x hx; simp [assegna_id, ids] at hx
  | cons r rs ih =>
    intro k x hx
    by_cases h : r.id = ""
    · rw [ids_assegna_cons_blank gen r rs k h] at hx
      rcases List.mem_cons.1 hx with hx | hx
      · refine Or.inr ⟨k, le_refl k, ?_, hx⟩
        simp only [nB, if_pos h]
        omega
      · rcases ih (k + 1) x hx with hu | ⟨j, hj1, hj2, hj3⟩
        · left
          rw [usedIds_cons, if_pos h]
          exact hu
        · refine Or.inr ⟨j, by omega, ?_, hj3⟩
          simp only [nB, if_pos h]
          omega
    · rw [ids_assegna_cons_keep gen r rs k h] at hx
      rcases List.mem_cons.1 hx with hx | hx
      · left
        rw [usedIds_cons, if_neg h]
        exact hx ▸ List.mem_cons_self r.id (usedIds rs)
      · rcases ih k x hx with hu | ⟨j, hj1, hj2, hj3⟩
        · left
          rw [usedIds_cons, if_neg h]
          exact List.mem_cons_of_mem r.id hu
        · refine Or.inr ⟨j, hj1, ?_, hj3⟩
          simp only [nB, if_neg h]
          omega

/-- Auxiliary: when the id stream never returns the empty string, every row
leaving the assignment loop has a non-blank id. -/
theorem assegna_id_non_vuoto (gen : Nat → String) (hgen : ∀ j, gen j ≠ "") :
    ∀ (rs : List Record) (k : Nat) (r : Record), r ∈ assegna_id gen rs k → r.id ≠ "" := by
  intro rs
  induction rs with
  | nil => intro k r hr; simp [assegna_id] at hr
  | cons r0 rs ih =>
    intro k r hr
    by_cases h : r0.id = ""
    · rw [assegna_id, if_pos h] at hr
      rcases List.mem_cons.1 hr with rfl | hr'
      · simpa using hgen k
      · exact ih (k + 1) r hr'
    · rw [assegna_id, if_neg h] at hr
      rcases List.mem_cons.1 hr with rfl | hr'
      · exact h
      · exact ih k r hr'

/-- Auxiliary: the ids leaving the assignment loop are pairwise distinct,
provided the non-blank input ids are pairwise distinct and the generated
ids used by the loop are pairwise distinct and fresh with respect to the
non-blank input ids. -/
theorem nodup_ids_assegna (gen : Nat → String) : ∀ (rs : List Record) (k : Nat),
    (usedIds rs).Nodup →
    (∀ i, k ≤ i → i < k + nB rs → ∀ j, k ≤ j → j < k + nB rs → gen i = gen j → i = j) →
    (∀ j, k ≤ j → j < k + nB rs → gen j ∉ usedIds rs) →
    (ids (assegna_id gen rs k)).Nodup := by
  intro rs
  induction rs with
  | nil => intro k _ _ _; simp [assegna_id, ids]
  | cons r rs ih =>
    intro k hnd hinj hfr
    by_cases h : r.id = ""
    · have hnB : nB (r :: rs) = nB rs + 1 := by simp [nB, if_pos h]
      have hused : usedIds (r :: rs) = usedIds rs := by rw [usedIds_cons, if_pos h]
      rw [ids_assegna_cons_blank gen r rs k h, List.nodup_cons]
      constructor
      · intro hmem
        rcases mem_ids_assegna gen rs (k + 1) (gen k) hmem with hu | ⟨j, hj1, hj2, hj3⟩
        · exact hfr k (le_refl k) (by omega) (hused ▸ hu)
        · have : k = j := hinj k (le_refl k) (by omega) j (by omega) (by omega) hj3
          omega
      · refine ih (k + 1) (hused ▸ hnd) ?_ ?_
        · intro i hi1 hi2 j hj1 hj2 hij
          exact hinj i (by omega) (by omega) j (by omega) (by omega) hij
        · intro j hj1 hj2
          exact fun hc => hfr j (by omega) (by omega) (hused ▸ hc)
    · have hnB : nB (r :: rs) = nB rs := by simp [nB, if_neg h]
      have hused : usedIds (r :: rs) = r.id :: usedIds rs := by rw [usedIds_cons, if_neg h]
      have hnd' : r.id ∉ usedIds rs ∧ (usedIds rs).Nodup := by
        rw [hused, List.nodup_cons] at hnd
        exact hnd
      rw [ids_assegna_cons_keep gen r rs k h, List.nodup_cons]
      constructor
      · intro hmem
        rcases mem_ids_assegna gen rs k r.id hmem with hu | ⟨j, hj1, hj2, hj3⟩
        · exact hnd'.1 hu
        · refine hfr j hj1 (by omega) ?_
          rw [hused, ← hj3]
          exact List.mem_cons_self r.id (usedIds rs)
      · refine ih k hnd'.2 ?_ ?_
        · intro i hi1 hi2 j hj1 hj2 hij
          exact hinj i (by omega) (by omega) j (by omega) (by omega) hij
        · intro j hj1 hj2 hc
          refine hfr j hj1 (by omega) ?_
          rw [hused]
          exact List.mem_cons_of_mem r.id hc

/-- C1: the reconciled set contains exactly the records of the full set
whose id was not displayed in the pre-edit view together with the edited
view after fresh-id assignment; consequently, an id shown in the pre-edit
view that no longer occurs in the edited view occurs nowhere in the output
(given that the generated ids used by the loop do not collide with the
displayed ids). -/
theorem reconcile_unione_e_cancellazione (full view edited : List Record)
    (gen : Nat → String) (hfr : ∀ j, j < nB edited → gen j ∉ ids view) :
    (∀ r, r ∈ reconcile full view edited gen ↔
        (r ∈ full ∧ r.id ∉ ids view) ∨ r ∈ assegna_id gen edited 0) ∧
    ∀ x, x ∈ ids view → x ∉ ids edited → x ∉ ids (reconcile full view edited gen) := by
  constructor
  · intro r
    simp [reconcile, List.mem_append, List.mem_filter]
  · intro x hxv hxe hmem
    have hsplit : ids (reconcile full view edited gen) =
        ids (full.filter fun r => !((ids view).contains r.id)) ++
          ids (assegna_id gen edited 0) := by
      simp [reconcile, ids]
    rw [hsplit] at hmem
    rcases List.mem_append.1 hmem with hk | ha
    · obtain ⟨r, hrf, rfl⟩ := List.mem_map.1 hk
      have hcond := (List.mem_filter.1 hrf).2
      simp at hcond
      exact hcond hxv
    · rcases mem_ids_assegna gen edited 0 x ha with hu | ⟨j, _, hj2, hj3⟩
      · exact hxe (mem_usedIds_mem_ids edited x hu)
      · exact hfr j (by omega) (hj3 ▸ hxv)

/-- Witness for C1: the deletion scenario of the specification — the single
displayed record is removed from the edited view, and its id is gone from
the reconciled output. -/
theorem reconcile_unione_e_cancellazione_witness :
    "a1" ∉ ids (reconcile [⟨"a1", ⟨2024, 1, 5⟩, "Uscita", "Cibo", 20, ""⟩]
      [⟨"a1", ⟨2024, 1, 5⟩, "Uscita", "Cibo", 20, ""⟩] [] (fun _ => "z9z9z9z9")) :=
  (reconcile_unione_e_cancellazione [⟨"a1", ⟨2024, 1, 5⟩, "Uscita", "Cibo", 20, ""⟩]
    [⟨"a1", ⟨2024, 1, 5⟩, "Uscita", "Cibo", 20, ""⟩] [] (fun _ => "z9z9z9z9")
    (by decide)).2 "a1" (by decide) (by decide)

/-- C2: a record of the full set whose id was not displayed in the pre-edit
view is kept, with all fields unchanged, by the reconciliation — edits and
deletions in the filtered view never touch records outside the displayed id
set. -/
theorem reconcile_frame (full view edited : List Record) (gen : Nat → String)
    (r : Record) (hr : r ∈ full) (hid : r.id ∉ ids view) :
    r ∈ reconcile full view edited gen := by
  simp only [reconcile, List.mem_append]
  left
  rw [List.mem_filter]
  exact ⟨hr, by simp [hid]⟩

/-- Witness for C2: a record outside the displayed year survives a
reconciliation that empties the view. -/
theorem reconcile_frame_witness :
    (⟨"c3", ⟨2023, 5, 1⟩, "Entrata", "Bonus", 9, ""⟩ : Record) ∈
      reconcile [⟨"a1", ⟨2024, 1, 5⟩, "Uscita", "Cibo", 20, ""⟩,
                 ⟨"c3", ⟨2023, 5, 1⟩, "Entrata", "Bonus", 9, ""⟩]
        [⟨"a1", ⟨2024, 1, 5⟩, "Uscita", "Cibo", 20, ""⟩] [] (fun _ => "z8z8z8z8") :=
  reconcile_frame [⟨"a1", ⟨2024, 1, 5⟩, "Uscita", "Cibo", 20, ""⟩,
                   ⟨"c3", ⟨2023, 5, 1⟩, "Entrata", "Bonus", 9, ""⟩]
    [⟨"a1", ⟨2024, 1, 5⟩, "Uscita", "Cibo", 20, ""⟩] [] (fun _ => "z8z8z8z8")
    ⟨"c3", ⟨2023, 5, 1⟩, "Entrata", "Bonus", 9, ""⟩ (by simp) (by decide)

/-- C3 counterexample: it is not true that every record in the reconciled
output has a non-blank id — a blank-id record of the (reloaded) full set
that was not displayed is kept with its blank id, because the
id-assignment loop runs only over the edited view. -/
theorem reconcile_id_vuoto_controesempio :
    ¬ ∀ (full view edited : List Record) (gen : Nat → String),
        ∀ r ∈ reconcile full view edited gen, r.id ≠ "" := by
  intro hclaim
  exact hclaim [⟨"", ⟨2024, 1, 5⟩, "Uscita", "Cibo", 20, ""⟩] [] [] (fun _ => "x1y2z3w4")
    ⟨"", ⟨2024, 1, 5⟩, "Uscita", "Cibo", 20, ""⟩ (by simp [reconcile, assegna_id, ids]) rfl

/-- C3 amended: every record of the edited view leaves the reconciliation
with a non-blank id (the loop covers exactly the rows of the edited view),
and the whole output has non-blank ids whenever the kept records of the
full set already have non-blank ids and the id stream never returns a
blank. -/
theorem reconcile_id_non_vuoti (full view edited : List Record) (gen : Nat → String)
    (hfull : ∀ r ∈ full, r.id ≠ "") (hgen : ∀ j, gen j ≠ "") :
    ∀ r ∈ reconcile full view edited gen, r.id ≠ "" := by
  intro r hr
  simp only [reconcile] at hr
  rcases List.mem_append.1 hr with hk | ha
  · exact hfull r (List.mem_of_mem_filter hk)
  · exact assegna_id_non_vuoto gen hgen edited 0 r ha

/-- Witness for C3's amended statement: the freshly inserted blank-id row
leaves the reconciliation carrying the generated id. -/
theorem reconcile_id_non_vuoti_witness :
    ({ id := "nuovo1x2", data := ⟨2024, 1, 6⟩, tipo := "Uscita", categoria := "Casa",
       importo := 7, note := "" } : Record).id ≠ "" :=
  reconcile_id_non_vuoti [⟨"a1", ⟨2024, 1, 5⟩, "Uscita", "Cibo", 20, ""⟩]
    [⟨"a1", ⟨2024, 1, 5⟩, "Uscita", "Cibo", 20, ""⟩]
    [⟨"", ⟨2024, 1, 6⟩, "Uscita", "Casa", 7, ""⟩] (fun _ => "nuovo1x2")
    (by decide) (by intro j; show ("nuovo1x2" : String) ≠ ""; decide)
    { id := "nuovo1x2", data := ⟨2024, 1, 6⟩, tipo := "Uscita", categoria := "Casa",
      importo := 7, note := "" }
    (by simp [reconcile, assegna_id])

/-- C9: id uniqueness is an invariant of the two id-producing operations —
the form insert keeps the ids pairwise distinct when the freshly generated
id is new, and the reconciliation keeps them pairwise distinct when the
full set has distinct ids, the non-blank ids of the edited view are
pairwise distinct and come from the displayed id set (the grid hides the id
column, so surviving rows keep their displayed ids), and the generated ids
used by the loop are pairwise distinct and fresh. -/
theorem invariante_id_unici :
    (∀ (df : List Record) (nuovo : Record),
        (ids df).Nodup → nuovo.id ∉ ids df →
        (ids (aggiungi_movimento df nuovo)).Nodup) ∧
    ∀ (full view edited : List Record) (gen : Nat → String),
      (ids full).Nodup → (usedIds edited).Nodup →
      (∀ r ∈ edited, r.id ≠ "" → r.id ∈ ids view) →
      (∀ i, i < nB edited → ∀ j, j < nB edited → gen i = gen j → i = j) →
      (∀ j, j < nB edited → gen j ∉ ids full) →
      (∀ j, j < nB edited → gen j ∉ usedIds edited) →
      (ids (reconcile full view edited gen)).Nodup := by
  constructor
  · intro df nuovo hnd hnew
    by_cases h : df = []
    · subst h
      simp [aggiungi_movimento, ids]
    · have hids : ids (aggiungi_movimento df nuovo) = ids df ++ [nuovo.id] := by
        simp [aggiungi_movimento, if_neg h, ids]
      rw [hids]
      refine List.Nodup.append hnd (List.nodup_singleton nuovo.id) ?_
      intro a ha hb
      rw [List.mem_singleton] at hb
      exact hnew (hb ▸ ha)
  · intro full view edited gen h1 h2 h3 h4 h5 h6
    have hkept : (ids (full.filter fun r => !((ids view).contains r.id))).Nodup :=
      List.Nodup.sublist (List.Sublist.map Record.id (List.filter_sublist full)) h1
    have hass : (ids (assegna_id gen edited 0)).Nodup := by
      refine nodup_ids_assegna gen edited 0 h2 ?_ ?_
      · intro i hi1 hi2 j hj1 hj2 hij
        exact h4 i (by omega) j (by omega) hij
      · intro j hj1 hj2
        exact h6 j (by omega)
    have hsplit : ids (reconcile full view edited gen) =
        ids (full.filter fun r => !((ids view).contains r.id)) ++
          ids (assegna_id gen edited 0) := by
      simp [reconcile, ids]
    rw [hsplit]
    refine List.Nodup.append hkept hass ?_
    intro x hx1 hx2
    obtain ⟨r, hrf, rfl⟩ := List.mem_map.1 hx1
    have hrfull : r ∈ full := (List.mem_filter.1 hrf).1
    have hnotview : r.id ∉ ids view := by
      have hcond := (List.mem_filter.1 hrf).2
      simpa using hcond
    rcases mem_ids_assegna gen edited 0 r.id hx2 with hu | ⟨j, _, hj2, hj3⟩
    · simp only [usedIds, List.mem_filterMap] at hu
      obtain ⟨r', hr', hval⟩ := hu
      by_cases hb : r'.id = ""
      · simp [hb] at hval
      · simp only [if_neg hb, Option.some.injEq] at hval
        exact hnotview (hval ▸ h3 r' hr' hb)
    · exact h5 j (by omega) (hj3 ▸ List.mem_map_of_mem Record.id hrfull)

/-- Witness for C9: a concrete insert and a concrete reconciliation (one
kept record, one surviving edited record, one fresh blank-id row) both keep
the ids pairwise distinct. -/
theorem invariante_id_unici_witness :
    (ids (aggiungi_movimento [⟨"a1", ⟨2024, 1, 5⟩, "Uscita", "Cibo", 20, ""⟩]
      ⟨"c3", ⟨2023, 5, 1⟩, "Entrata", "Bonus", 9, ""⟩)).Nodup ∧
    (ids (reconcile
      [⟨"a1", ⟨2024, 1, 5⟩, "Uscita", "Cibo", 20, ""⟩,
       ⟨"c3", ⟨2023, 5, 1⟩, "Entrata", "Bonus", 9, ""⟩]
      [⟨"a1", ⟨2024, 1, 5⟩, "Uscita", "Cibo", 20, ""⟩]
      [⟨"", ⟨2024, 1, 6⟩, "Uscita", "Casa", 7, ""⟩,
       ⟨"a1", ⟨2024, 1, 5⟩, "Uscita", "Cibo", 25, ""⟩]
      (fun _ => "n1n1n1n1"))).Nodup :=
  ⟨invariante_id_unici.1 [⟨"a1", ⟨2024, 1, 5⟩, "Uscita", "Cibo", 20, ""⟩]
      ⟨"c3", ⟨2023, 5, 1⟩, "Entrata", "Bonus", 9, ""⟩ (by decide) (by decide),
   invariante_id_unici.2
      [⟨"a1", ⟨2024, 1, 5⟩, "Uscita", "Cibo", 20, ""⟩,
       ⟨"c3", ⟨2023, 5, 1⟩, "Entrata", "Bonus", 9, ""⟩]
      [⟨"a1", ⟨2024, 1, 5⟩, "Uscita", "Cibo", 20, ""⟩]
      [⟨"", ⟨2024, 1, 6⟩, "Uscita", "Casa", 7, ""⟩,
       ⟨"a1", ⟨2024, 1, 5⟩, "Uscita", "Cibo", 25, ""⟩]
      (fun _ => "n1n1n1n1")
      (by decide) (by decide) (by decide) (by decide) (by decide) (by decide)⟩
